import Mathlib

/-!
Verification of `src/libzerostash/src/files.rs` (zerostash): the `Entry`
snapshot value, the `FileStore` deduplication index, and the
field-serialization bridge (`key` / `serialize` / `deserialize`).

The embedding is single-threaded and shallow: the `DashMap`-backed set of
entries is modelled by the list of its keys (no duplicates are ever created
because `insert` on an already-present key leaves the key set unchanged),
and the `FieldReader` stream is modelled by the list of results its
successive `read_next` calls return.
-/

/-- Modelled from the spec: `ChunkPointer` lives in `crate::chunks`, which is
not part of the shown source. Per §2/§9 it is an opaque, immutable,
content-addressed reference whose equality is defined by content address;
we model it as a wrapper around that address. -/
structure ChunkPointer where
  address : Nat
deriving DecidableEq, Repr

/-- Rust struct `Entry` from `files.rs`: one file's full observable state at scan time.
Field names and order follow the Rust struct; `u64`/`u32` become `Nat`
(values produced by the code are in range and no arithmetic overflows are
exercised), `Vec<(u64, Arc<ChunkPointer>)>` becomes a list of pairs
(`Arc` is transparent to equality and hashing). `Eq`/`Hash` are derived
structurally in Rust; `DecidableEq` is the structural equality here. -/
structure Entry where
  unix_secs : Nat
  unix_nanos : Nat
  unix_perm : Nat
  unix_uid : Nat
  unix_gid : Nat
  size : Nat
  readonly : Bool
  name : String
  chunks : List (Nat × ChunkPointer)
deriving DecidableEq, Repr

/-- Rust type `FileIndex = DashSet<Arc<Entry>> = DashMap<Arc<Entry>, ()>`: the key set
of the concurrent map, modelled as the list of keys in insertion order
(the map never holds two equal keys). -/
abbrev FileIndex : Type := List Entry

/-- Model of `DashMap::insert(key, ())` on the key set: if an equal key is present the
stored key is kept and only the value (here `()`) is replaced, so the key
set is unchanged; otherwise the key is added. -/
def FileIndex.insertKey (s : FileIndex) (e : Entry) : FileIndex :=
  if e ∈ s then s else s ++ [e]

/-- Rust struct `FileStore(Arc<FileIndex>)`: a handle over one index. The shallow model
carries the index value itself. -/
structure FileStore where
  index : FileIndex

/-- Model of `FileStore::default()`: a fresh store over an empty index. -/
def FileStore.default : FileStore := ⟨[]⟩

/-- Model of `FileStore::has_changed(&self, file: &Entry) -> bool`:
`!self.0.contains_key(file)`. -/
def FileStore.has_changed (fs : FileStore) (file : Entry) : Bool :=
  !(decide (file ∈ fs.index))

/-- Model of `FileStore::push(&mut self, file: Entry)`:
`self.0.insert(Arc::new(file), ())`. -/
def FileStore.push (fs : FileStore) (file : Entry) : FileStore :=
  ⟨fs.index.insertKey file⟩

/-- Model of `MetaObjectField::key()` for `FileStore`: `"files".to_string()`. -/
def FileStore.key : String := "files"

/-- Model of `MetaObjectField::serialize`: iterates the map and calls
`mw.write_next(f.key())` once per entry (`f.key()` is the map entry's key,
i.e. the `Arc<Entry>`). The model returns the list of records written, in
iteration order. -/
def FileStore.serialize (fs : FileStore) : List Entry :=
  fs.index

/-- The error side of `FieldReader::read_next() -> Result<Item, _>`: the
code never inspects the error, it only distinguishes `Ok` from `Err`; the
spec (§4.3) says the error conflates end-of-stream with decode failure. -/
inductive ReadError where
  | endOfStream : ReadError
  | decodeFailure : ReadError
deriving DecidableEq, Repr

/-- Model of `MetaObjectField::deserialize`:
`while let Ok(file) = mw.read_next() { self.0.insert(Arc::new(file), ()) }`.
The reader is modelled by the list of results successive `read_next` calls
return; an exhausted model list behaves like the reader reporting an error
forever after. -/
def FileStore.deserialize (fs : FileStore) : List (Except ReadError Entry) → FileStore
  | [] => fs
  | .error _ :: _ => fs
  | .ok file :: rest => FileStore.deserialize ⟨fs.index.insertKey file⟩ rest

/-! ### `Entry::from_file` and `to_unix_mtime` -/

/-- Error taxonomy of §7 of the spec for `Entry::from_file` (the Rust code
erases both sources into `Box<dyn Error>`): `IoError` for a failing
`file.metadata()?`, `ClockError` for a failure inside `to_unix_mtime`. -/
inductive FromFileError where
  | IoError : FromFileError
  | ClockError : FromFileError
deriving DecidableEq, Repr

/-- Model of `std::time::SystemTime`, as the signed number of nanoseconds relative to
`UNIX_EPOCH`. `duration_since(UNIX_EPOCH)` fails exactly when the time
precedes the epoch. -/
structure SystemTime where
  nanosSinceEpoch : Int
deriving DecidableEq, Repr

/-- Model of `SystemTime::duration_since(UNIX_EPOCH)` followed by
`(as_secs, subsec_nanos)`: errors iff the timestamp predates the epoch,
otherwise whole seconds and sub-second nanoseconds. -/
def SystemTime.unixDuration (t : SystemTime) : Except Unit (Nat × Nat) :=
  if t.nanosSinceEpoch < 0 then Except.error ()
  else Except.ok (t.nanosSinceEpoch.toNat / 1000000000, t.nanosSinceEpoch.toNat % 1000000000)

/-- Model of `std::fs::Metadata` as consumed by `files.rs`: `modified()` is fallible
(the platform clock may be unavailable), plus `len()`,
`permissions().readonly()`, and the unix-only `permissions().mode()`,
`uid()`, `gid()`. -/
structure Metadata where
  modified : Except Unit SystemTime
  len : Nat
  permReadonly : Bool
  permMode : Nat
  uid : Nat
  gid : Nat
deriving Repr

/-- Model of `fn to_unix_mtime(m: &Metadata) -> Result<(u64, u32), Box<dyn Error>>`:
`let mtime = m.modified()?.duration_since(UNIX_EPOCH)?;
Ok((mtime.as_secs(), mtime.subsec_nanos()))`. Both failure sources are the
spec's `ClockError`. -/
def to_unix_mtime (m : Metadata) : Except FromFileError (Nat × Nat) :=
  match m.modified with
  | Except.error _ => Except.error FromFileError.ClockError
  | Except.ok t =>
      match t.unixDuration with
      | Except.error _ => Except.error FromFileError.ClockError
      | Except.ok p => Except.ok p

/-- Model of `std::path::Path` as consumed by `files.rs`: only `to_str()` is called on
it, which yields the path's string exactly when the path is valid UTF-8. -/
structure FilePath where
  validUtf8 : Bool
  str : String
deriving DecidableEq, Repr

/-- Model of `Path::to_str(&self) -> Option<&str>`: `Some` iff the path is valid
UTF-8. -/
def FilePath.to_str (p : FilePath) : Option String :=
  if p.validUtf8 then some p.str else none

/-- Model of `#[cfg(unix)] Entry::from_file(file, path)`. The `file.metadata()` call
is the first argument (its only use is that one fallible OS call). The
result is `none` when the function panics — the `path.to_str().unwrap()`
in the struct literal, reached only after both `?` operators succeed —
and `some` of the Rust `Result` otherwise. -/
def Entry.from_file (file_metadata : Except Unit Metadata) (path : FilePath) :
    Option (Except FromFileError Entry) :=
  match file_metadata with
  | Except.error _ => some (Except.error FromFileError.IoError)
  | Except.ok metadata =>
      match to_unix_mtime metadata with
      | Except.error e => some (Except.error e)
      | Except.ok (unix_secs, unix_nanos) =>
          match path.to_str with
          | none => none
          | some name =>
              some (Except.ok
                { unix_secs := unix_secs
                  unix_nanos := unix_nanos
                  unix_perm := metadata.permMode
                  unix_uid := metadata.uid
                  unix_gid := metadata.gid
                  size := metadata.len
                  readonly := metadata.permReadonly
                  name := name
                  chunks := [] })

/-- Model of `#[cfg(windows)] Entry::from_file(file, path)`, modelled by its evident
intent. The source body writes `Ok(File { ... })`, but no type `File` is in
scope in `files.rs` (only the module `std::fs` is imported), so the
`cfg(windows)` item cannot compile; the declared return type
`Result<Entry, Box<dyn Error>>` and the field list — which matches `Entry`
exactly — show `Entry` was meant. Fields as written: `unix_perm: 0`,
`unix_uid: 0`, `unix_gid: 0`, the rest as on unix. -/
def Entry.from_file_windows (file_metadata : Except Unit Metadata) (path : FilePath) :
    Option (Except FromFileError Entry) :=
  match file_metadata with
  | Except.error _ => some (Except.error FromFileError.IoError)
  | Except.ok metadata =>
      match to_unix_mtime metadata with
      | Except.error e => some (Except.error e)
      | Except.ok (unix_secs, unix_nanos) =>
          match path.to_str with
          | none => none
          | some name =>
              some (Except.ok
                { unix_secs := unix_secs
                  unix_nanos := unix_nanos
                  unix_perm := 0
                  unix_uid := 0
                  unix_gid := 0
                  size := metadata.len
                  readonly := metadata.permReadonly
                  name := name
                  chunks := [] })

/-! ### Helper lemmas about the index model -/

theorem FileIndex.mem_insertKey (s : FileIndex) (e x : Entry) :
    x ∈ s.insertKey e ↔ x ∈ s ∨ x = e := by
  unfold FileIndex.insertKey
  by_cases h : e ∈ s
  · simp only [if_pos h]
    constructor
    · exact fun hx => Or.inl hx
    · rintro (hx | rfl)
      · exact hx
      · exact h
  · simp only [if_neg h]
    simp [List.mem_append]

theorem FileStore.deserialize_ok_append_error (good : List Entry) :
    ∀ (fs : FileStore) (err : ReadError) (rest : List (Except ReadError Entry)),
      fs.deserialize (good.map Except.ok ++ Except.error err :: rest) =
        fs.deserialize (good.map Except.ok) := by
  induction good with
  | nil => intro fs err rest; rfl
  | cons e good ih =>
      intro fs err rest
      simpa [FileStore.deserialize] using ih _ err rest

theorem FileStore.mem_deserialize_ok (good : List Entry) :
    ∀ (fs : FileStore) (x : Entry),
      x ∈ (fs.deserialize (good.map Except.ok)).index ↔ x ∈ fs.index ∨ x ∈ good := by
  induction good with
  | nil => intro fs x; simp [FileStore.deserialize]
  | cons e good ih =>
      intro fs x
      simp only [List.map_cons, FileStore.deserialize]
      rw [ih]
      simp only [FileIndex.mem_insertKey, List.mem_cons]
      tauto

theorem FileIndex.self_mem_insertKey (s : FileIndex) (e : Entry) : e ∈ s.insertKey e :=
  (FileIndex.mem_insertKey s e e).mpr (Or.inr rfl)

theorem FileIndex.insertKey_idem (s : FileIndex) (e : Entry) :
    (s.insertKey e).insertKey e = s.insertKey e := by
  unfold FileIndex.insertKey
  rw [if_pos]
  exact FileIndex.self_mem_insertKey s e

theorem FileStore.mem_foldl_push (L : List Entry) :
    ∀ (fs : FileStore) (x : Entry),
      x ∈ (L.foldl FileStore.push fs).index ↔ x ∈ fs.index ∨ x ∈ L := by
  induction L with
  | nil => intro fs x; simp
  | cons e L ih =>
      intro fs x
      simp only [List.foldl_cons]
      rw [ih]
      simp only [FileStore.push, FileIndex.mem_insertKey, List.mem_cons]
      tauto

/-! ### Sample values used by the witnesses -/

/-- A concrete entry, the scenario value of §8 of the spec. -/
def entryA : Entry :=
  { unix_secs := 1000
    unix_nanos := 0
    unix_perm := 420
    unix_uid := 1
    unix_gid := 1
    size := 10
    readonly := false
    name := "a.txt"
    chunks := [(0, ⟨1⟩)] }

/-- A concrete entry equal to `entryA` in every field except `unix_secs`. -/
def entryA2 : Entry := { entryA with unix_secs := 1001 }

/-- A concrete entry distinct from `entryA` and `entryA2`. -/
def entryB : Entry := { entryA with name := "b.txt", size := 11 }

/-- A concrete metadata value whose modification time is
1500000000500 ns after the epoch (1500 s plus 500 ns). -/
def metaSample : Metadata :=
  { modified := Except.ok ⟨1500000000500⟩
    len := 10
    permReadonly := false
    permMode := 420
    uid := 1
    gid := 2 }

/-- A concrete valid-UTF-8 path. -/
def pathSample : FilePath := ⟨true, "a.txt"⟩

/-! ### The claims -/

/-- C1: for every finite set S of Entry values held in a FileStore, running
serialize on that store and then deserialize of the produced records into a
fresh, empty FileStore yields an index whose member set equals S (as sets,
order-independent). -/
theorem serialize_deserialize_roundtrip (fs : FileStore) (e : Entry) :
    e ∈ (FileStore.default.deserialize (fs.serialize.map Except.ok)).index ↔ e ∈ fs.index := by
  rw [FileStore.mem_deserialize_ok]
  simp [FileStore.default, FileStore.serialize]

/-- C2: for every Entry e and every FileStore state, has_changed e is true
iff no member of the index equals e; in particular it is true on any store
built by pushing only entries different from e (so before any Entry equal
to e has been pushed), and false immediately after push e. -/
theorem has_changed_correct (fs : FileStore) (e : Entry) :
    (fs.has_changed e = true ↔ e ∉ fs.index) ∧
    (∀ L : List Entry, e ∉ L →
        (L.foldl FileStore.push FileStore.default).has_changed e = true) ∧
    (fs.push e).has_changed e = false := by
  refine ⟨by simp [FileStore.has_changed], ?_, ?_⟩
  · intro L hL
    simp only [FileStore.has_changed, Bool.not_eq_true', decide_eq_false_iff_not]
    rw [FileStore.mem_foldl_push]
    simp [FileStore.default, hL]
  · simp [FileStore.has_changed, FileStore.push, FileIndex.self_mem_insertKey]

theorem has_changed_correct_witness :
    (([entryB] : List Entry).foldl FileStore.push FileStore.default).has_changed entryA = true ∧
    (FileStore.default.push entryA).has_changed entryA = false :=
  ⟨(has_changed_correct FileStore.default entryA).2.1 [entryB] (by decide),
   (has_changed_correct FileStore.default entryA).2.2⟩

/-- C3: for every Entry e and every FileStore state, pushing e twice leaves
the index in the same observable state (same membership, same size) as
pushing it once: the states are equal outright. -/
theorem push_idempotent (fs : FileStore) (e : Entry) :
    (fs.push e).push e = fs.push e := by
  simp only [FileStore.push]
  rw [FileIndex.insertKey_idem]

/-- C4: Entry equality is full-value equality over all attributes including
the chunk list: two Entry values differing only in unix_secs are not
equal, and has_changed reports true for the second after the first has been
pushed. -/
theorem entry_full_value_identity (e1 e2 : Entry)
    (hnanos : e1.unix_nanos = e2.unix_nanos) (hperm : e1.unix_perm = e2.unix_perm)
    (huid : e1.unix_uid = e2.unix_uid) (hgid : e1.unix_gid = e2.unix_gid)
    (hsize : e1.size = e2.size) (hro : e1.readonly = e2.readonly)
    (hname : e1.name = e2.name) (hchunks : e1.chunks = e2.chunks)
    (hsecs : e1.unix_secs ≠ e2.unix_secs) :
    e1 ≠ e2 ∧ (FileStore.default.push e1).has_changed e2 = true := by
  have hne : e1 ≠ e2 := fun h => hsecs (congrArg Entry.unix_secs h)
  refine ⟨hne, ?_⟩
  simp only [FileStore.has_changed, FileStore.push, FileStore.default,
    FileIndex.insertKey, Bool.not_eq_true', decide_eq_false_iff_not]
  simp [Ne.symm hne]

theorem entry_full_value_identity_witness :
    (FileStore.default.push entryA).has_changed entryA2 = true :=
  (entry_full_value_identity entryA entryA2 rfl rfl rfl rfl rfl rfl rfl rfl (by decide)).2

/-- C5: deserialize repeatedly calls read_next and inserts each successfully
decoded Entry, terminating at the first result that is an error: on a
stream of successes followed by an error followed by anything, the state
equals the one from the successes alone, and exactly the entries decoded
before the first error end up inserted. -/
theorem deserialize_stops_at_first_error (fs : FileStore) (good : List Entry)
    (err : ReadError) (rest : List (Except ReadError Entry)) :
    fs.deserialize (good.map Except.ok ++ Except.error err :: rest) =
      fs.deserialize (good.map Except.ok) ∧
    (∀ e, e ∈ (fs.deserialize (good.map Except.ok ++ Except.error err :: rest)).index ↔
        e ∈ fs.index ∨ e ∈ good) := by
  refine ⟨FileStore.deserialize_ok_append_error good fs err rest, fun e => ?_⟩
  rw [FileStore.deserialize_ok_append_error good fs err rest]
  exact FileStore.mem_deserialize_ok good fs e

/-- C6: Entry.from_file returns an IoError exactly when reading the file's
metadata fails, a ClockError when the modification timestamp predates the
epoch or the clock is unavailable; on success it returns an Entry with the
normalized (whole seconds, sub-second nanoseconds) modification time and
an empty chunk list. -/
theorem from_file_error_and_success (m : Metadata) (p : FilePath)
    (hpath : p.validUtf8 = true) :
    (∀ io : Unit, Entry.from_file (Except.error io) p =
        some (Except.error FromFileError.IoError)) ∧
    (m.modified = Except.error () →
        Entry.from_file (Except.ok m) p = some (Except.error FromFileError.ClockError)) ∧
    (∀ t : SystemTime, m.modified = Except.ok t → t.nanosSinceEpoch < 0 →
        Entry.from_file (Except.ok m) p = some (Except.error FromFileError.ClockError)) ∧
    (∀ t : SystemTime, m.modified = Except.ok t → 0 ≤ t.nanosSinceEpoch →
        Entry.from_file (Except.ok m) p = some (Except.ok
          { unix_secs := t.nanosSinceEpoch.toNat / 1000000000
            unix_nanos := t.nanosSinceEpoch.toNat % 1000000000
            unix_perm := m.permMode
            unix_uid := m.uid
            unix_gid := m.gid
            size := m.len
            readonly := m.permReadonly
            name := p.str
            chunks := [] })) := by
  refine ⟨fun io => rfl, ?_, ?_, ?_⟩
  · intro hmod
    simp [Entry.from_file, to_unix_mtime, hmod]
  · intro t hmod hneg
    simp [Entry.from_file, to_unix_mtime, hmod, SystemTime.unixDuration, hneg]
  · intro t hmod hnonneg
    simp [Entry.from_file, to_unix_mtime, hmod, SystemTime.unixDuration,
      not_lt.mpr hnonneg, FilePath.to_str, hpath]

theorem from_file_error_and_success_witness :
    Entry.from_file (Except.ok metaSample) pathSample = some (Except.ok
      { unix_secs := 1500
        unix_nanos := 500
        unix_perm := 420
        unix_uid := 1
        unix_gid := 2
        size := 10
        readonly := false
        name := "a.txt"
        chunks := [] }) :=
  (from_file_error_and_success metaSample pathSample rfl).2.2.2 ⟨1500000000500⟩ rfl (by decide)

/-- C7: on a platform without a POSIX-like permission model (the
`cfg(windows)` constructor, modelled by its evident intent since its body
names a type `File` that is not in scope and therefore cannot compile as
written), from_file produces an Entry whose owner and group ids are 0,
whose permission bits are 0, whose read-only flag comes from the portable
permissions API, and which has the same shape (the same `Entry` type and
fields) as on POSIX platforms. -/
theorem from_file_windows_neutral_attributes (m : Metadata) (p : FilePath) (t : SystemTime)
    (hpath : p.validUtf8 = true) (hmod : m.modified = Except.ok t)
    (ht : 0 ≤ t.nanosSinceEpoch) :
    Entry.from_file_windows (Except.ok m) p = some (Except.ok
      { unix_secs := t.nanosSinceEpoch.toNat / 1000000000
        unix_nanos := t.nanosSinceEpoch.toNat % 1000000000
        unix_perm := 0
        unix_uid := 0
        unix_gid := 0
        size := m.len
        readonly := m.permReadonly
        name := p.str
        chunks := [] }) := by
  simp [Entry.from_file_windows, to_unix_mtime, hmod, SystemTime.unixDuration,
    not_lt.mpr ht, FilePath.to_str, hpath]

theorem from_file_windows_neutral_attributes_witness :
    Entry.from_file_windows (Except.ok metaSample) pathSample = some (Except.ok
      { unix_secs := 1500
        unix_nanos := 500
        unix_perm := 0
        unix_uid := 0
        unix_gid := 0
        size := 10
        readonly := false
        name := "a.txt"
        chunks := [] }) :=
  from_file_windows_neutral_attributes metaSample pathSample ⟨1500000000500⟩ rfl rfl (by decide)

/-- C8: the field-serialization key operation of FileStore returns the
constant string "files" for every invocation. -/
theorem key_is_files : FileStore.key = "files" := rfl

/-- C9: deserialize never removes or replaces existing members: for a
FileStore whose index already contains set T, deserializing a record
stream decoding to set S yields an index equal to the union of T and S,
with every member of T still present afterwards. -/
theorem deserialize_unions_into_existing (fs : FileStore) (good : List Entry) :
    (∀ e, e ∈ fs.index → e ∈ (fs.deserialize (good.map Except.ok)).index) ∧
    (∀ e, e ∈ (fs.deserialize (good.map Except.ok)).index ↔ e ∈ fs.index ∨ e ∈ good) := by
  refine ⟨fun e he => ?_, fun e => FileStore.mem_deserialize_ok good fs e⟩
  rw [FileStore.mem_deserialize_ok]
  exact Or.inl he

/-- C10: Entry.from_file panics (returns `none` in the model, rather than a
Rust error) when the supplied path is not valid UTF-8 and the two fallible
steps before the unwrap succeed, because the name string is produced by an
unchecked unwrap of the path-to-string conversion; for every path that is
valid UTF-8, the function never panics, whatever the metadata. -/
theorem from_file_panics_iff_invalid_utf8 (m : Metadata) (p : FilePath) (t : SystemTime)
    (hmod : m.modified = Except.ok t) (ht : 0 ≤ t.nanosSinceEpoch) :
    (p.validUtf8 = false → Entry.from_file (Except.ok m) p = none) ∧
    (p.validUtf8 = true → ∀ md : Except Unit Metadata, Entry.from_file md p ≠ none) := by
  constructor
  · intro hinvalid
    simp [Entry.from_file, to_unix_mtime, hmod, SystemTime.unixDuration,
      not_lt.mpr ht, FilePath.to_str, hinvalid]
  · intro hvalid md
    match md with
    | Except.error _ => simp [Entry.from_file]
    | Except.ok m' =>
        match hmt : to_unix_mtime m' with
        | Except.error e => simp [Entry.from_file, hmt]
        | Except.ok (s, ns) => simp [Entry.from_file, hmt, FilePath.to_str, hvalid]

theorem from_file_panics_iff_invalid_utf8_witness :
    Entry.from_file (Except.ok metaSample) ⟨false, "a.txt"⟩ = none :=
  (from_file_panics_iff_invalid_utf8 metaSample ⟨false, "a.txt"⟩ ⟨1500000000500⟩ rfl
    (by decide)).1 rfl
